import Mathlib

/-!
Shallow embedding of the EVM plugin VM of EZChain-core/coreth (package evm,
file src/unnamed/part_000) and proofs about its block-production scheduler,
atomic-transaction queue, fund selector, tx-pool stabilizer and block
parsing/assembly callbacks.

External collaborators (the eth chain, its state database, the codec, the
RLP decoder) are modelled as explicit environments of pure functions; the
channels the Go code uses are modelled by their observable content (a list
for the buffered pendingAtomicTxs channel, a Bool for a one-slot signal
channel, a Nat counter for posted signals). Machine integers (uint64 amounts,
nonces) are modelled as Nat: every arithmetic step of the modelled code keeps
values within range (the only subtraction is by a value clamped below the
minuend), so no wrap-around is dropped by the model.
-/

namespace CorethVM

/-- A 32-byte hash, kept opaque; the Go zero value common.Hash\x7b\x7d is `emptyHash`. -/
abbrev Hash := Nat

/-- The zero hash common.Hash\x7b\x7d used by the code to clear the expected stabilized head. -/
def emptyHash : Hash := 0

/-- A 20-byte Ethereum address, kept opaque. -/
abbrev Address := Nat

/-- A secp256k1 private key identity (crypto.PrivateKeySECP256K1R), kept opaque. -/
abbrev Key := Nat

/-- An atomic transaction (*Tx), kept opaque: only its identity matters here. -/
structure Tx where
  txid : Nat
deriving DecidableEq, Repr

/-- The error values of the source relevant to the modelled operations. -/
inductive Err where
  | emptyBlock          -- errEmptyBlock
  | createBlock         -- errCreateBlock
  | blockFrequency      -- errBlockFrequency: too frequent block issuance
  | invalidBlock        -- errInvalidBlock
  | tooManyAtomicTx     -- errTooManyAtomicTx: too many pending atomic txs
  | insufficientFunds   -- errInsufficientFunds
  | stateTransfer       -- an error returned by EVMStateTransfer
  | rlpDecode           -- an error returned by rlp.DecodeBytes
deriving DecidableEq, Repr

/-- batchSize constant of the source: the Max-state proposal threshold. -/
def batchSize : Nat := 250

/-- Capacity of the pendingAtomicTxs channel: make(chan *Tx, 1024). -/
def pendingAtomicTxsCapacity : Nat := 1024

/-- Durations in nanoseconds, as the Go type time.Duration (int64). -/
abbrev Duration := Int

/-- time.Millisecond in nanoseconds. -/
def millisecond : Duration := 1000000

/-- minBlockTime = 250 * time.Millisecond. -/
def minBlockTime : Duration := 250 * millisecond

/-- maxBlockTime = 1000 * time.Millisecond. -/
def maxBlockTime : Duration := 1000 * millisecond

/-- maxDuration of the source: the larger of two durations. -/
def maxDuration (x y : Duration) : Duration :=
  if x > y then x else y

/-!
## Atomic transaction queue (issueTx)

The pendingAtomicTxs channel is a buffered channel of capacity 1024; its
content is modelled as a list (front = next receive). atomicTxSubmitChan is
a one-slot signal channel modelled as a Bool (true = a signal is pending).
-/

/-- The queue-related state of the VM touched by issueTx. -/
structure TxQueueState where
  pendingAtomicTxs : List Tx
  atomicTxSubmitSignal : Bool
deriving DecidableEq, Repr

/-- VM.issueTx: non-blocking send of tx on pendingAtomicTxs; on success a
non-blocking send on atomicTxSubmitChan (a full slot is skipped by the
default branch, leaving it pending); on a full queue it returns
errTooManyAtomicTx without touching anything. -/
def issueTx (s : TxQueueState) (tx : Tx) : TxQueueState × Option Err :=
  if s.pendingAtomicTxs.length < pendingAtomicTxsCapacity then
    ({ pendingAtomicTxs := s.pendingAtomicTxs ++ [tx], atomicTxSubmitSignal := true }, none)
  else
    (s, some Err.tooManyAtomicTx)

/-!
## Finalize-and-assemble callback (SetOnFinalizeAndAssemble)

The callback receives the in-progress state and the ordinary transactions of
the block; it performs one non-blocking receive on pendingAtomicTxs. The
external EVMStateTransfer and codec.Marshal calls are an environment.
-/

/-- An ordinary (eth) transaction in the block body; only the count matters. -/
abbrev EthTx := Nat

/-- External calls made by the finalize-and-assemble callback. -/
structure AssembleEnv where
  evmStateTransferOk : Tx → Bool   -- whether EVMStateTransfer succeeds on this tx
  marshal : Tx → List Nat          -- vm.codec.Marshal codecVersion (error ignored by the source)

/-- Observable outcome of one finalize-and-assemble callback invocation. -/
structure AssembleResult where
  pendingAtomicTxs : List Tx   -- the queue after the one select on it
  extraData : Option (List Nat)  -- the bytes returned for the block extra-data
  nilBlockPushed : Bool        -- whether nil was sent on newBlockChan
  err : Option Err
deriving DecidableEq, Repr

/-- The SetOnFinalizeAndAssemble callback body: one non-blocking receive on
pendingAtomicTxs; if a tx is present, apply its state transfer (on failure
push nil on newBlockChan and return the error), else marshal it as the
extra-data; if none is present and there are no ordinary txs, fail with
errEmptyBlock; otherwise return no extra-data. -/
def onFinalizeAndAssemble (env : AssembleEnv) (queue : List Tx) (txs : List EthTx) :
    AssembleResult :=
  match queue with
  | atx :: rest =>
    if env.evmStateTransferOk atx then
      { pendingAtomicTxs := rest, extraData := some (env.marshal atx),
        nilBlockPushed := false, err := none }
    else
      { pendingAtomicTxs := rest, extraData := none,
        nilBlockPushed := true, err := some Err.stateTransfer }
  | [] =>
    if txs.length = 0 then
      { pendingAtomicTxs := [], extraData := none,
        nilBlockPushed := true, err := some Err.emptyBlock }
    else
      { pendingAtomicTxs := [], extraData := none,
        nilBlockPushed := false, err := none }

/-!
## Block production scheduler

The three-valued timer state (bdTimerStateMin / Max / Long) plus the two
flags bdGenWaitFlag and bdGenFlag, all mutated under vm.bdlock. The external
inputs of tryBlockGen (chain.PendingSize, len(pendingAtomicTxs), room on the
toEngine channel for a non-blocking send) are an environment; the
PendingSize error path of the source is external and not modelled (the
environment always yields a size).
-/

/-- The block-delay timer state: bdTimerStateMin, bdTimerStateMax, bdTimerStateLong. -/
inductive BDTimerState where
  | min
  | max
  | long
deriving DecidableEq, Repr

/-- The scheduler fields of the VM guarded by bdlock. -/
structure SchedulerState where
  bdTimerState : BDTimerState
  bdGenWaitFlag : Bool
  bdGenFlag : Bool
deriving DecidableEq, Repr

/-- The scheduler fields as VM.Initialize sets them: bdTimerState =
bdTimerStateLong, bdGenWaitFlag = true, bdGenFlag at its zero value false. -/
def initSchedulerState : SchedulerState :=
  { bdTimerState := BDTimerState.long, bdGenWaitFlag := true, bdGenFlag := false }

/-- External observations made by one tryBlockGen call. -/
structure GenEnv where
  pendingSize : Nat          -- vm.chain.PendingSize()
  pendingAtomicCount : Nat   -- len(vm.pendingAtomicTxs)
  networkChanFree : Bool     -- whether vm.networkChan accepts a non-blocking send
deriving DecidableEq, Repr

/-- Observable outcome of one tryBlockGen call. -/
structure GenResult where
  sched : SchedulerState
  notified : Bool   -- whether commonEng.PendingTxs was pushed onto vm.networkChan
  err : Option Err
deriving DecidableEq, Repr

/-- VM.tryBlockGen: skip when a generation is already in flight; otherwise set
the wait flag, no-op when there is no pending work, then per timer state:
Min never notifies, Max notifies only at batchSize pending ordinary txs,
Long always notifies; the notification is a non-blocking send, and a full
channel yields errBlockFrequency without setting the in-flight flag. -/
def tryBlockGen (env : GenEnv) (s : SchedulerState) : GenResult :=
  if s.bdGenFlag then
    { sched := s, notified := false, err := none }
  else
    let s1 : SchedulerState := { s with bdGenWaitFlag := true }
    let push : GenResult :=
      if env.networkChanFree then
        { sched := { s1 with bdGenFlag := true }, notified := true, err := none }
      else
        { sched := s1, notified := false, err := some Err.blockFrequency }
    if env.pendingSize = 0 ∧ env.pendingAtomicCount = 0 then
      { sched := s1, notified := false, err := none }
    else
      match s1.bdTimerState with
      | BDTimerState.min => { sched := s1, notified := false, err := none }
      | BDTimerState.max =>
        if env.pendingSize < batchSize then
          { sched := s1, notified := false, err := none }
        else
          push
      | BDTimerState.long => push

/-- A wrapped block as VM.buildBlock returns it; only its identity matters. -/
structure Block where
  id : Hash
deriving DecidableEq, Repr

/-- Observable outcome of one VM.buildBlock call. -/
structure BuildOutcome where
  sched : SchedulerState
  timerArm : Option Duration   -- the SetTimeoutIn argument, none when the timer is not re-armed
  result : Except Err Block
deriving Repr

/-- VM.buildBlock after GenBlock: the value received on newBlockChan decides;
nil yields errCreateBlock at once, while a block resets the timer state to
Min, clears both flags and re-arms the delay timer for minBlockTime (the
subsequent wait on txPoolStabilizedOk is external to the scheduler state). -/
def buildBlock (s : SchedulerState) (newBlock : Option Block) : BuildOutcome :=
  match newBlock with
  | none => { sched := s, timerArm := none, result := Except.error Err.createBlock }
  | some blk =>
    { sched :=
        { bdTimerState := BDTimerState.min, bdGenWaitFlag := false, bdGenFlag := false },
      timerArm := some minBlockTime,
      result := Except.ok blk }

/-- Observable outcome of one firing of the blockDelayTimer callback. -/
structure TimerFireResult where
  sched : SchedulerState
  timerArm : Option Duration
  retriedBlockGen : Bool   -- whether tryBlockGen was called again after the switch
deriving DecidableEq, Repr

/-- The blockDelayTimer callback set in VM.start: on Min advance to Max and
re-arm for maxDuration(maxBlockTime - minBlockTime, 0); on Max advance to
Long without re-arming; on Long leave the state alone; afterwards read
bdGenWaitFlag and, when set, call tryBlockGen again. -/
def blockDelayTimerFire (s : SchedulerState) : TimerFireResult :=
  match s.bdTimerState with
  | BDTimerState.min =>
    { sched := { s with bdTimerState := BDTimerState.max },
      timerArm := some (maxDuration (maxBlockTime - minBlockTime) 0),
      retriedBlockGen := s.bdGenWaitFlag }
  | BDTimerState.max =>
    { sched := { s with bdTimerState := BDTimerState.long },
      timerArm := none,
      retriedBlockGen := s.bdGenWaitFlag }
  | BDTimerState.long =>
    { sched := s, timerArm := none, retriedBlockGen := s.bdGenWaitFlag }

/-!
## Fund selector (GetSpendableFunds)

The execution-engine state reads (GetEthAddress, the balance of the target
asset at the last accepted block, GetAcceptedNonce) are an environment of
pure functions; balances and nonces are uint64 values modelled as Nat (the
only subtraction performed is by a value clamped to the minuend, so no
wrap-around is lost). The source divides the AVAX balance by x2cRate before
taking Uint64; balanceOf yields that final uint64 directly.
-/

/-- External state reads of the fund selector, all at the last accepted block. -/
structure SpendEnv where
  addrOf : Key → Address     -- GetEthAddress
  balanceOf : Address → Nat  -- the uint64 balance of the target asset
  nonceOf : Address → Nat    -- vm.GetAcceptedNonce

/-- AtomicEVMInput: one spend descriptor produced by the fund selector. -/
structure AtomicEVMInput where
  address : Address
  amount : Nat
  assetID : Nat
  nonce : Nat
deriving DecidableEq, Repr

/-- The loop of VM.GetSpendableFunds over the keys: break at amount zero,
skip zero balances, cap the consumed balance at the remaining amount, record
the input with the accepted nonce, recurse on the reduced amount; yields the
accumulated inputs, signer lists and the remaining amount. -/
def getSpendableFundsLoop (env : SpendEnv) (assetID : Nat) :
    List Key → Nat → List AtomicEVMInput × List (List Key) × Nat
  | [], amount => ([], [], amount)
  | key :: rest, amount =>
    if amount = 0 then ([], [], amount)
    else if env.balanceOf (env.addrOf key) = 0 then
      getSpendableFundsLoop env assetID rest amount
    else
      let take :=
        if amount < env.balanceOf (env.addrOf key) then amount
        else env.balanceOf (env.addrOf key)
      let r := getSpendableFundsLoop env assetID rest (amount - take)
      ({ address := env.addrOf key, amount := take, assetID := assetID,
         nonce := env.nonceOf (env.addrOf key) } :: r.1,
       [key] :: r.2.1, r.2.2)

/-- VM.GetSpendableFunds: run the loop over the keys; a positive remaining
amount afterwards yields errInsufficientFunds (discarding the incomplete
selection), otherwise the inputs and their signer lists. -/
def GetSpendableFunds (env : SpendEnv) (keys : List Key) (assetID : Nat) (amount : Nat) :
    Except Err (List AtomicEVMInput × List (List Key)) :=
  let r := getSpendableFundsLoop env assetID keys amount
  if 0 < r.2.2 then Except.error Err.insufficientFunds
  else Except.ok (r.1, r.2.1)

/-- The fund-selection algorithm as the specification words it (for the C2
refinement): visit the identities in order while the remaining amount is
positive, skip zero balances, consume min(balance, remaining) recording the
identity current nonce, stop once the remaining amount reaches zero, and
report failure when the identities are exhausted with a positive remainder. -/
def greedySelectSpec (env : SpendEnv) (assetID : Nat) :
    List Key → Nat → Option (List AtomicEVMInput × List (List Key))
  | [], remaining => if remaining = 0 then some ([], []) else none
  | key :: rest, remaining =>
    if remaining = 0 then some ([], [])
    else if env.balanceOf (env.addrOf key) = 0 then
      greedySelectSpec env assetID rest remaining
    else
      match greedySelectSpec env assetID rest
          (remaining - min (env.balanceOf (env.addrOf key)) remaining) with
      | none => none
      | some (ins, sgs) =>
        some ({ address := env.addrOf key,
                amount := min (env.balanceOf (env.addrOf key)) remaining,
                assetID := assetID,
                nonce := env.nonceOf (env.addrOf key) } :: ins,
              [key] :: sgs)

/-- The specification-worded fund selector: the greedy selection, with the
insufficient-funds error on failure and no inputs returned then. -/
def greedyFundSelectSpec (env : SpendEnv) (keys : List Key) (assetID : Nat)
    (amount : Nat) : Except Err (List AtomicEVMInput × List (List Key)) :=
  match greedySelectSpec env assetID keys amount with
  | none => Except.error Err.insufficientFunds
  | some r => Except.ok r

/-- The concrete fund-selector scenario of the specification: three
identities 1, 2, 3 (used directly as their addresses) holding balances 0, 5
and 10 of the asset, with nonce 100 + address. -/
def exampleSpendEnv : SpendEnv :=
  { addrOf := fun k => k,
    balanceOf := fun a => if a = 1 then 0 else if a = 2 then 5 else if a = 3 then 10 else 0,
    nonceOf := fun a => 100 + a }

/-!
## Tx-pool stabilization synchronizer

txPoolStabilizedHead holds the hash the builder is waiting for (the zero
hash when none); txPoolStabilizedOk is a one-slot channel, modelled by the
number of signals posted on it so far. awaitTxPoolStabilized handles one
NewMinedBlockEvent at a time under txPoolStabilizedLock.
-/

/-- The stabilizer fields of the VM guarded by txPoolStabilizedLock, with the
signal channel modelled by a running count of posts. -/
structure StabilizerState where
  txPoolStabilizedHead : Hash
  stabilizedSignals : Nat
deriving DecidableEq, Repr

/-- One NewMinedBlockEvent handled by awaitTxPoolStabilized: when the mined
block hash equals the expected head, post one signal on txPoolStabilizedOk
and clear the head to the zero hash; otherwise do nothing. -/
def onNewMinedBlock (s : StabilizerState) (h : Hash) : StabilizerState :=
  if s.txPoolStabilizedHead = h then
    { txPoolStabilizedHead := emptyHash, stabilizedSignals := s.stabilizedSignals + 1 }
  else
    s

/-!
## Block parsing (parseBlock)

rlp.DecodeBytes and chain.VerifyBlock are external; parseBlock only inspects
the decoded block through its hash and coinbase, so the environment exposes
exactly those.
-/

/-- The part of a decoded types.Block that parseBlock inspects. -/
structure EthBlock where
  hash : Hash
  coinbase : Address
deriving DecidableEq, Repr

/-- External collaborators of VM.parseBlock. -/
structure ParseEnv where
  rlpDecode : List Nat → Option EthBlock   -- rlp.DecodeBytes into a types.Block
  verifyBlock : EthBlock → Bool            -- vm.chain.VerifyBlock
  genesisHash : Hash                       -- vm.genesisHash
  blackholeAddr : Address                  -- coreth.BlackholeAddr

/-- The Block value parseBlock wraps a decoded eth block into (the vm back
reference is a lookup handle and carries no state). -/
structure ParsedBlock where
  id : Hash
  ethBlock : EthBlock
deriving DecidableEq, Repr

/-- VM.parseBlock: RLP-decode the bytes (propagating the decode error), run
chain.VerifyBlock, then reject any non-genesis block whose coinbase is not
the burn address; otherwise wrap the block with its hash as identifier. -/
def parseBlock (env : ParseEnv) (b : List Nat) : Except Err ParsedBlock :=
  match env.rlpDecode b with
  | none => Except.error Err.rlpDecode
  | some ethBlock =>
    if ¬ env.verifyBlock ethBlock then
      Except.error Err.invalidBlock
    else if ethBlock.hash ≠ env.genesisHash ∧ ethBlock.coinbase ≠ env.blackholeAddr then
      Except.error Err.invalidBlock
    else
      Except.ok { id := ethBlock.hash, ethBlock := ethBlock }

/-!
## Extra-state-change callback (extractAtomicTx, SetOnExtraStateChange)

The codec and EVMStateTransfer are external; the world state touched by
EVMStateTransfer is opaque.
-/

/-- The opaque world state EVMStateTransfer acts on. -/
abbrev EvmState := Nat

/-- External collaborators of the extra-state-change callback. -/
structure ExtraStateEnv where
  unmarshalTx : List Nat → Option Tx                    -- vm.codec.Unmarshal into a Tx
  evmStateTransfer : Tx → EvmState → Except Err EvmState  -- the atomic state transfer

/-- VM.extractAtomicTx: unmarshal the block extra-data as an atomic
transaction, yielding nil on any decode failure (the subsequent Sign call
only re-derives caches and its error is ignored by the source). -/
def extractAtomicTx (env : ExtraStateEnv) (extData : List Nat) : Option Tx :=
  match env.unmarshalTx extData with
  | none => none
  | some atx => some atx

/-- The SetOnExtraStateChange callback: extract the atomic transaction of the
block and, when present, apply its state transfer; when absent, succeed
without touching the state. -/
def onExtraStateChange (env : ExtraStateEnv) (extData : List Nat) (st : EvmState) :
    Except Err EvmState :=
  match extractAtomicTx env extData with
  | none => Except.ok st
  | some tx => env.evmStateTransfer tx st

end CorethVM

namespace CorethVM

/-- C4: issueTx accepts the transaction exactly when the fixed-capacity (1024)
queue has a free slot, appending it and leaving the wake signal pending
(whatever its prior state, so a full signal slot is not an error) and
returning nil; on a full queue it returns errTooManyAtomicTx and leaves the
queue and the signal channel untouched. -/
theorem issueTx_spec (s : TxQueueState) (tx : Tx) :
    (s.pendingAtomicTxs.length < pendingAtomicTxsCapacity →
      issueTx s tx =
        ({ pendingAtomicTxs := s.pendingAtomicTxs ++ [tx], atomicTxSubmitSignal := true },
         none)) ∧
    (pendingAtomicTxsCapacity ≤ s.pendingAtomicTxs.length →
      issueTx s tx = (s, some Err.tooManyAtomicTx)) := by
  constructor
  · intro h
    simp [issueTx, h]
  · intro h
    simp [issueTx, Nat.not_lt.mpr h]

/-- C1: one finalize-and-assemble callback invocation dequeues at most one
transaction from the pending atomic queue (the resulting queue is the old
queue or its tail), and the extra-data it returns is either absent or the
encoding of exactly the one dequeued transaction. -/
theorem onFinalizeAndAssemble_at_most_one (env : AssembleEnv) (queue : List Tx)
    (txs : List EthTx) :
    ((onFinalizeAndAssemble env queue txs).pendingAtomicTxs = queue ∨
      ∃ atx, queue = atx :: (onFinalizeAndAssemble env queue txs).pendingAtomicTxs) ∧
    ((onFinalizeAndAssemble env queue txs).extraData = none ∨
      ∃ atx, queue = atx :: (onFinalizeAndAssemble env queue txs).pendingAtomicTxs ∧
        (onFinalizeAndAssemble env queue txs).extraData = some (env.marshal atx)) ∧
    queue.length ≤ (onFinalizeAndAssemble env queue txs).pendingAtomicTxs.length + 1 := by
  match queue with
  | [] =>
    by_cases h : txs.length = 0 <;>
      simp [onFinalizeAndAssemble, h]
  | atx :: rest =>
    by_cases h : env.evmStateTransferOk atx <;>
      simp [onFinalizeAndAssemble, h]

/-- C5: tryBlockGen is a no-op while a generation is in flight; otherwise it
sets the wait flag and is a no-op when both the ordinary pool and the atomic
queue are empty; it never notifies in state Min, notifies in state Max only
at batchSize (250) or more pending ordinary txs, and in state Long (given
work and a free channel) always notifies; with the notification channel full
the attempt yields errBlockFrequency and the in-flight flag stays clear. -/
theorem tryBlockGen_spec (env : GenEnv) (s : SchedulerState) :
    (s.bdGenFlag = true →
      tryBlockGen env s = { sched := s, notified := false, err := none }) ∧
    (s.bdGenFlag = false → (tryBlockGen env s).sched.bdGenWaitFlag = true) ∧
    (s.bdGenFlag = false → env.pendingSize = 0 → env.pendingAtomicCount = 0 →
      tryBlockGen env s =
        { sched := { s with bdGenWaitFlag := true }, notified := false, err := none }) ∧
    (s.bdTimerState = BDTimerState.min → (tryBlockGen env s).notified = false) ∧
    (s.bdTimerState = BDTimerState.max → (tryBlockGen env s).notified = true →
      batchSize ≤ env.pendingSize) ∧
    (s.bdGenFlag = false → s.bdTimerState = BDTimerState.long →
      (env.pendingSize ≠ 0 ∨ env.pendingAtomicCount ≠ 0) → env.networkChanFree = true →
      tryBlockGen env s =
        { sched := { s with bdGenWaitFlag := true, bdGenFlag := true },
          notified := true, err := none }) ∧
    (env.networkChanFree = false → (tryBlockGen env s).notified = false ∧
      (tryBlockGen env s).sched.bdGenFlag = s.bdGenFlag) ∧
    (s.bdGenFlag = false → s.bdTimerState = BDTimerState.long →
      (env.pendingSize ≠ 0 ∨ env.pendingAtomicCount ≠ 0) → env.networkChanFree = false →
      tryBlockGen env s =
        { sched := { s with bdGenWaitFlag := true }, notified := false,
          err := some Err.blockFrequency }) ∧
    (s.bdGenFlag = false → s.bdTimerState = BDTimerState.max →
      batchSize ≤ env.pendingSize → env.networkChanFree = false →
      tryBlockGen env s =
        { sched := { s with bdGenWaitFlag := true }, notified := false,
          err := some Err.blockFrequency }) ∧
    (s.bdGenFlag = false → s.bdTimerState = BDTimerState.max →
      batchSize ≤ env.pendingSize → env.networkChanFree = true →
      tryBlockGen env s =
        { sched := { s with bdGenWaitFlag := true, bdGenFlag := true },
          notified := true, err := none }) ∧
    ((tryBlockGen env s).err = some Err.blockFrequency →
      env.networkChanFree = false ∧ (tryBlockGen env s).sched.bdGenFlag = false) := by
  obtain ⟨ts, wf, gf⟩ := s
  cases gf
  · cases ts <;>
    · by_cases hw : env.pendingSize = 0 ∧ env.pendingAtomicCount = 0
      · simp [tryBlockGen, hw, batchSize]
      · by_cases hc : env.networkChanFree <;>
          by_cases hb : env.pendingSize < batchSize <;>
            simp [tryBlockGen, hw, hc, hb, Nat.le_of_not_lt, Nat.not_lt.mp] <;>
              omega
  · simp [tryBlockGen]

/-- C6 counterexample: a failed build attempt (nil received on newBlockChan)
returns errCreateBlock before the reset code runs, so the scheduler state is
not reset to Min, the flags are not cleared and the timer is not re-armed. -/
theorem buildBlock_failure_no_reset :
    (buildBlock
        { bdTimerState := BDTimerState.long, bdGenWaitFlag := true, bdGenFlag := true }
        none).sched =
      { bdTimerState := BDTimerState.long, bdGenWaitFlag := true, bdGenFlag := true } ∧
    (buildBlock
        { bdTimerState := BDTimerState.long, bdGenWaitFlag := true, bdGenFlag := true }
        none).timerArm = none ∧
    (buildBlock
        { bdTimerState := BDTimerState.long, bdGenWaitFlag := true, bdGenFlag := true }
        none).result = Except.error Err.createBlock := by
  refine ⟨rfl, rfl, rfl⟩

/-- C6 amended: after a successful build attempt the scheduler state is reset
to Min, the in-flight and wait-requested flags are cleared and the timer is
re-armed for minBlockTime; after a failed attempt (nil block) buildBlock
returns errCreateBlock with the scheduler state untouched and no re-arm. -/
theorem buildBlock_spec (s : SchedulerState) (newBlock : Option Block) :
    (∀ blk, newBlock = some blk →
      buildBlock s newBlock =
        { sched :=
            { bdTimerState := BDTimerState.min, bdGenWaitFlag := false, bdGenFlag := false },
          timerArm := some minBlockTime,
          result := Except.ok blk }) ∧
    (newBlock = none →
      buildBlock s newBlock =
        { sched := s, timerArm := none, result := Except.error Err.createBlock }) := by
  constructor
  · rintro blk rfl
    rfl
  · rintro rfl
    rfl

/-- C7: the scheduler starts in Long; a timer fire in Min advances to Max and
re-arms for maxDuration(maxBlockTime - minBlockTime, 0), a nonnegative
duration; a fire in Max advances to Long without re-arming; a fire in Long
leaves the state unchanged; and after every fire tryBlockGen is retried
exactly when the wait-requested flag was set. -/
theorem blockDelayTimerFire_spec (s : SchedulerState) :
    initSchedulerState.bdTimerState = BDTimerState.long ∧
    (s.bdTimerState = BDTimerState.min →
      blockDelayTimerFire s =
        { sched := { s with bdTimerState := BDTimerState.max },
          timerArm := some (maxDuration (maxBlockTime - minBlockTime) 0),
          retriedBlockGen := s.bdGenWaitFlag }) ∧
    (∀ d, (blockDelayTimerFire s).timerArm = some d → 0 ≤ d) ∧
    (s.bdTimerState = BDTimerState.max →
      blockDelayTimerFire s =
        { sched := { s with bdTimerState := BDTimerState.long },
          timerArm := none, retriedBlockGen := s.bdGenWaitFlag }) ∧
    (s.bdTimerState = BDTimerState.long →
      blockDelayTimerFire s =
        { sched := s, timerArm := none, retriedBlockGen := s.bdGenWaitFlag }) ∧
    (blockDelayTimerFire s).retriedBlockGen = s.bdGenWaitFlag := by
  obtain ⟨ts, wf, gf⟩ := s
  cases ts <;>
    simp [blockDelayTimerFire, initSchedulerState, maxDuration, maxBlockTime,
      minBlockTime, millisecond]

/-- C8: a mined-pool event whose hash equals the expected stabilized head
posts exactly one signal on the stabilized channel and clears the expected
head; an event with a different hash changes nothing; and a second event
with the same (genuine, nonzero) hash after the clear posts nothing. -/
theorem onNewMinedBlock_spec (s : StabilizerState) (h : Hash)
    (hne : h ≠ emptyHash) (hexp : s.txPoolStabilizedHead = h) :
    (onNewMinedBlock s h).stabilizedSignals = s.stabilizedSignals + 1 ∧
    (onNewMinedBlock s h).txPoolStabilizedHead = emptyHash ∧
    (∀ t : StabilizerState, ∀ h2, t.txPoolStabilizedHead ≠ h2 → onNewMinedBlock t h2 = t) ∧
    onNewMinedBlock (onNewMinedBlock s h) h = onNewMinedBlock s h := by
  refine ⟨?_, ?_, ?_, ?_⟩
  · simp [onNewMinedBlock, hexp]
  · simp [onNewMinedBlock, hexp]
  · intro t h2 hne2
    simp [onNewMinedBlock, hne2]
  · simp [onNewMinedBlock, hexp, Ne.symm hne]

/-- C8 witness: the theorem at the concrete state with expected head 5 and no
signal yet, for the event hash 5. -/
theorem onNewMinedBlock_spec_witness :
    (onNewMinedBlock { txPoolStabilizedHead := 5, stabilizedSignals := 0 } 5).stabilizedSignals =
      ({ txPoolStabilizedHead := 5, stabilizedSignals := 0 } : StabilizerState).stabilizedSignals + 1 ∧
    (onNewMinedBlock { txPoolStabilizedHead := 5, stabilizedSignals := 0 } 5).txPoolStabilizedHead =
      emptyHash ∧
    (∀ t : StabilizerState, ∀ h2, t.txPoolStabilizedHead ≠ h2 → onNewMinedBlock t h2 = t) ∧
    onNewMinedBlock (onNewMinedBlock { txPoolStabilizedHead := 5, stabilizedSignals := 0 } 5) 5 =
      onNewMinedBlock { txPoolStabilizedHead := 5, stabilizedSignals := 0 } 5 :=
  onNewMinedBlock_spec { txPoolStabilizedHead := 5, stabilizedSignals := 0 } 5
    (by decide) (by decide)

/-- C9: parseBlock is total (every byte sequence yields a block or an error);
it yields a block exactly when the bytes decode, the decoded block passes
chain verification and its coinbase is the burn address unless it is the
genesis block (matched by hash); the block it yields wraps the decoded block
under its hash; and every failure is the decode error or errInvalidBlock. -/
theorem parseBlock_spec (env : ParseEnv) (b : List Nat) :
    ((∃ blk, parseBlock env b = Except.ok blk) ↔
      ∃ eb, env.rlpDecode b = some eb ∧ env.verifyBlock eb = true ∧
        (eb.hash = env.genesisHash ∨ eb.coinbase = env.blackholeAddr)) ∧
    (∀ blk, parseBlock env b = Except.ok blk →
      env.rlpDecode b = some blk.ethBlock ∧ blk.id = blk.ethBlock.hash) ∧
    (env.rlpDecode b = none → parseBlock env b = Except.error Err.rlpDecode) ∧
    (∀ e, parseBlock env b = Except.error e → e = Err.rlpDecode ∨ e = Err.invalidBlock) ∧
    ((∃ blk, parseBlock env b = Except.ok blk) ∨ (∃ e, parseBlock env b = Except.error e)) := by
  rcases hdec : env.rlpDecode b with _ | eb
  · simp [parseBlock, hdec]
  · by_cases hv : env.verifyBlock eb
    · by_cases hcb : eb.hash ≠ env.genesisHash ∧ eb.coinbase ≠ env.blackholeAddr
      · simp [parseBlock, hdec, hv, hcb]
      · push_neg at hcb
        by_cases hg : eb.hash = env.genesisHash
        · simp [parseBlock, hdec, hv, hg]
        · have hbh : eb.coinbase = env.blackholeAddr := hcb hg
          simp [parseBlock, hdec, hv, hg, hbh]
    · simp [parseBlock, hdec, hv]

/-- Helper: the specification-worded greedy selection succeeds exactly when
the source loop ends with remaining amount zero, and then returns the very
inputs and signers the loop accumulated. -/
theorem greedySelectSpec_eq_loop (env : SpendEnv) (assetID : Nat) (keys : List Key)
    (amount : Nat) :
    greedySelectSpec env assetID keys amount =
      (if (getSpendableFundsLoop env assetID keys amount).2.2 = 0 then
        some ((getSpendableFundsLoop env assetID keys amount).1,
          (getSpendableFundsLoop env assetID keys amount).2.1)
      else none) := by
  induction keys generalizing amount with
  | nil =>
    by_cases h : amount = 0 <;> simp [greedySelectSpec, getSpendableFundsLoop, h]
  | cons key rest ih =>
    by_cases h : amount = 0
    · simp [greedySelectSpec, getSpendableFundsLoop, h]
    · by_cases hb : env.balanceOf (env.addrOf key) = 0
      · simp [greedySelectSpec, getSpendableFundsLoop, h, hb, ih]
      · have hmin : min (env.balanceOf (env.addrOf key)) amount =
            (if amount < env.balanceOf (env.addrOf key) then amount
             else env.balanceOf (env.addrOf key)) := by
          by_cases hlt : amount < env.balanceOf (env.addrOf key) <;>
            simp [hlt] <;> omega
        simp only [greedySelectSpec, getSpendableFundsLoop, h, hb, if_false, hmin, ih]
        by_cases hr : (getSpendableFundsLoop env assetID rest
            (amount - if amount < env.balanceOf (env.addrOf key) then amount
              else env.balanceOf (env.addrOf key))).2.2 = 0 <;>
          simp [hr]

/-- Helper: the addresses of the inputs the loop accumulates form a sublist
of the key addresses in order, and the signer lists a sublist of the
singleton key lists: each identity contributes at most one input. -/
theorem getSpendableFundsLoop_sublist (env : SpendEnv) (assetID : Nat)
    (keys : List Key) (amount : Nat) :
    List.Sublist
      ((getSpendableFundsLoop env assetID keys amount).1.map AtomicEVMInput.address)
      (keys.map env.addrOf) ∧
    List.Sublist (getSpendableFundsLoop env assetID keys amount).2.1
      (keys.map (fun k => [k])) := by
  induction keys generalizing amount with
  | nil => simp [getSpendableFundsLoop]
  | cons key rest ih =>
    by_cases h : amount = 0
    · simp [getSpendableFundsLoop, h]
    · by_cases hb : env.balanceOf (env.addrOf key) = 0
      · simp only [getSpendableFundsLoop, h, hb, if_false, if_true, List.map_cons]
        exact ⟨List.Sublist.cons _ (ih amount).1, List.Sublist.cons _ (ih amount).2⟩
      · simp only [getSpendableFundsLoop, h, hb, if_false, List.map_cons]
        exact ⟨List.Sublist.cons₂ _ (ih _).1, List.Sublist.cons₂ _ (ih _).2⟩

/-- C2: GetSpendableFunds coincides with the specification-worded greedy
selection on every input (identities visited in order, zero balances
skipped, min(balance, remaining) consumed with the accepted nonce recorded,
early stop at remaining zero, errInsufficientFunds with no inputs on
exhaustion), and every selection it returns draws at most one input, with a
singleton signer list, per identity in key order. -/
theorem GetSpendableFunds_spec (env : SpendEnv) (keys : List Key) (assetID : Nat)
    (amount : Nat) :
    GetSpendableFunds env keys assetID amount =
      greedyFundSelectSpec env keys assetID amount ∧
    (∀ ins sgs, GetSpendableFunds env keys assetID amount = Except.ok (ins, sgs) →
      List.Sublist (ins.map AtomicEVMInput.address) (keys.map env.addrOf) ∧
      List.Sublist sgs (keys.map (fun k => [k]))) := by
  constructor
  · rw [GetSpendableFunds, greedyFundSelectSpec, greedySelectSpec_eq_loop]
    by_cases hr : (getSpendableFundsLoop env assetID keys amount).2.2 = 0 <;>
      simp [hr]
  · intro ins sgs hok
    rw [GetSpendableFunds] at hok
    by_cases hr : 0 < (getSpendableFundsLoop env assetID keys amount).2.2
    · simp [hr] at hok
    · simp [hr] at hok
      obtain ⟨h1, h2⟩ := hok
      rw [← h1, ← h2]
      exact getSpendableFundsLoop_sublist env assetID keys amount

/-- C3 counterexample: with balances [0, 5, 10] and target amount 8 the
selector does not take 8 from the second identity leaving the third
untouched; it takes 5 from identity two and 3 from identity three. -/
theorem exampleSpend_counterexample :
    GetSpendableFunds exampleSpendEnv [1, 2, 3] 42 8 =
      Except.ok
        ([{ address := 2, amount := 5, assetID := 42, nonce := 102 },
          { address := 3, amount := 3, assetID := 42, nonce := 103 }],
         [[2], [3]]) ∧
    (GetSpendableFunds exampleSpendEnv [1, 2, 3] 42 8).toOption.map
        (fun r => r.1.map (fun i => (i.address, i.amount))) ≠
      some [(2, 8)] := by
  refine ⟨rfl, by decide⟩

/-- C3 amended: with balances [0, 5, 10], target amount 8 selects identity
two for 5 and identity three for 3; target amount 20 fails with the
insufficient-funds error and returns no inputs; the zero-balance identity
one is skipped in every outcome and incomplete coverage never succeeds. -/
theorem exampleSpend_amended :
    GetSpendableFunds exampleSpendEnv [1, 2, 3] 42 8 =
      Except.ok
        ([{ address := 2, amount := 5, assetID := 42, nonce := 102 },
          { address := 3, amount := 3, assetID := 42, nonce := 103 }],
         [[2], [3]]) ∧
    GetSpendableFunds exampleSpendEnv [1, 2, 3] 42 20 =
      Except.error Err.insufficientFunds ∧
    GetSpendableFunds exampleSpendEnv [1, 2, 3] 42 15 =
      Except.ok
        ([{ address := 2, amount := 5, assetID := 42, nonce := 102 },
          { address := 3, amount := 10, assetID := 42, nonce := 103 }],
         [[2], [3]]) := by
  refine ⟨rfl, rfl, rfl⟩

/-- C10: whenever the block extra-data does not decode as an atomic
transaction, extractAtomicTx yields nil, and the extra-state-change callback
then succeeds with the world state untouched, applying no state transfer. -/
theorem onExtraStateChange_decode_failure (env : ExtraStateEnv) (extData : List Nat)
    (st : EvmState) :
    extractAtomicTx env extData = env.unmarshalTx extData ∧
    (env.unmarshalTx extData = none →
      extractAtomicTx env extData = none ∧
      onExtraStateChange env extData st = Except.ok st) := by
  constructor
  · rcases h : env.unmarshalTx extData with _ | atx <;>
      simp [extractAtomicTx, h]
  · intro h
    refine ⟨by simp [extractAtomicTx, h], ?_⟩
    simp [onExtraStateChange, extractAtomicTx, h]

end CorethVM
